import Mathlib

/-!
Verification of the SNS_Download Instagram download core against its
natural-language specification.  The Python sources under `app/` are shallowly
embedded: mutable objects become explicit state passing, `datetime.now()`
becomes an explicit `now : Nat` argument (seconds), exceptions become
`Except`, and `random.choice` becomes selection by an explicit index.
-/

set_option maxRecDepth 4000

/-! ## Account model (`app/account_manager.py`) -/

/-- One hour, in seconds (`timedelta(hours=1)`). -/
def hourSecs : Nat := 3600

/-- `InstagramAccount` dataclass from `app/account_manager.py`.
Timestamps are `Nat` seconds; `None` becomes `Option.none`. -/
structure InstagramAccount where
  username : String
  password : String
  is_blocked : Bool := false
  blocked_until : Option Nat := none
  total_requests : Nat := 0
  failed_requests : Nat := 0
  last_used : Option Nat := none
deriving Repr, DecidableEq

namespace InstagramAccount

/-- `InstagramAccount.is_available`: returns the boolean result together with
the (possibly healed) account, since the Python method clears an expired
block as a side effect. -/
def is_available (a : InstagramAccount) (now : Nat) : Bool × InstagramAccount :=
  match a.is_blocked, a.blocked_until with
  | true, some u =>
    if now < u then
      (false, a)
    else
      let a2 := { a with is_blocked := false, blocked_until := none }
      (!a2.is_blocked, a2)
  | _, _ => (!a.is_blocked, a)

/-- `InstagramAccount.mark_success`. -/
def mark_success (a : InstagramAccount) (now : Nat) : InstagramAccount :=
  { a with
    total_requests := a.total_requests + 1
    last_used := some now
    failed_requests := 0 }

/-- `InstagramAccount.mark_failure`: increments counters and blocks the
account for one hour once `failed_requests` reaches 3. -/
def mark_failure (a : InstagramAccount) (now : Nat) : InstagramAccount :=
  let b : InstagramAccount :=
    { a with
      total_requests := a.total_requests + 1
      failed_requests := a.failed_requests + 1
      last_used := some now }
  if 3 ≤ b.failed_requests then
    { b with is_blocked := true, blocked_until := some (now + hourSecs) }
  else
    b

end InstagramAccount

/-! ## Account manager (`InstagramAccountManager`); the pool is its
`accounts` list.  The list-comprehension availability filter calls
`is_available` on every account, healing expired blocks in place. -/

/-- The pool after the availability scan healed expired blocks. -/
def healAll (accs : List InstagramAccount) (now : Nat) : List InstagramAccount :=
  accs.map (fun a => (a.is_available now).2)

/-- `[acc for acc in self.accounts if acc.is_available()]`: the available
(healed) accounts, in stored order. -/
def availableAccounts (accs : List InstagramAccount) (now : Nat) : List InstagramAccount :=
  (accs.map (fun a => a.is_available now)).filterMap
    (fun p => if p.1 then some p.2 else none)

/-- `InstagramAccountManager.get_random_account`; `random.choice` is modelled
by an explicit index `k` reduced modulo the number of available accounts.
Also returns the healed pool (the scan mutates `self.accounts`). -/
def get_random_account (accs : List InstagramAccount) (now k : Nat) :
    Option InstagramAccount × List InstagramAccount :=
  let av := availableAccounts accs now
  if av.isEmpty then
    (none, healAll accs now)
  else
    (av[k % av.length]?, healAll accs now)

/-- Python `min(..., key=lambda acc: acc.total_requests)`: keeps the first
account whose key is minimal. -/
def minByRequests (a : InstagramAccount) (rest : List InstagramAccount) : InstagramAccount :=
  rest.foldl (fun b c => if c.total_requests < b.total_requests then c else b) a

/-- `InstagramAccountManager.get_least_used_account`. -/
def get_least_used_account (accs : List InstagramAccount) (now : Nat) :
    Option InstagramAccount × List InstagramAccount :=
  match availableAccounts accs now with
  | [] => (none, healAll accs now)
  | a :: rest => (some (minByRequests a rest), healAll accs now)

/-- `InstagramAccountManager.mark_account_success`: mutates the first account
whose username matches, then `break`s. -/
def mark_account_success (accs : List InstagramAccount) (username : String)
    (now : Nat) : List InstagramAccount :=
  match accs with
  | [] => []
  | a :: rest =>
    if a.username = username then a.mark_success now :: rest
    else a :: mark_account_success rest username now

/-- `InstagramAccountManager.mark_account_failure`: mutates the first account
whose username matches, then `break`s. -/
def mark_account_failure (accs : List InstagramAccount) (username : String)
    (now : Nat) : List InstagramAccount :=
  match accs with
  | [] => []
  | a :: rest =>
    if a.username = username then a.mark_failure now :: rest
    else a :: mark_account_failure rest username now

/-- `InstagramAccountManager.has_available_accounts`. -/
def has_available_accounts (accs : List InstagramAccount) (now : Nat) : Bool :=
  accs.any (fun a => (a.is_available now).1)

/-! ## Python values and exceptions -/

/-- The Python values `validate_url` / `extract_shortcode` may receive:
`None`, a string, or (standing for all non-string objects) an integer. -/
inductive PyValue where
  | vNone
  | vStr (s : String)
  | vInt (n : Int)
deriving Repr, DecidableEq

/-- Error taxonomy of `app/exceptions.py`, plus Python's builtin
`ValueError` (raised by `urllib.parse.urlparse`). -/
inductive ExcKind where
  | invalidURL
  | privateAccount
  | contentNotFound
  | rateLimit
  | instagramAPI
  | downloadFailed
  | valueError
deriving Repr, DecidableEq

/-- A raised exception: kind, message, and the string-valued part of the
`details` dict. -/
structure PyExc where
  kind : ExcKind
  message : String
  details : List (String × String) := []
deriving Repr, DecidableEq

/-! ## URL parser (`app/parser.py`) -/

/-- The character class `[A-Za-z0-9_-]` of `SHORTCODE_PATTERN` and of every
capture group in `URL_PATTERNS`. -/
def isShortChar (c : Char) : Bool :=
  c.isAlpha || c.isDigit || c == '_' || c == '-'

/-- `SHORTCODE_PATTERN.match(shortcode)`: anchored, exactly 11 class chars. -/
def shortcodeOK (s : String) : Bool :=
  s.length == 11 && s.data.all isShortChar

/-- Characters allowed in a URL scheme by `urllib.parse`. -/
def schemeChar (c : Char) : Bool :=
  c.isAlpha || c.isDigit || c == '+' || c == '-' || c == '.'

/-- Strip a leading `scheme:` as CPython `urlsplit` does: the prefix before
the first `:` must be nonempty, start with a letter and consist of scheme
characters. -/
def stripScheme (u : List Char) : List Char :=
  match u.findIdx? (· == ':') with
  | none => u
  | some i =>
    match u with
    | [] => u
    | c :: _ =>
      if 0 < i ∧ c.isAlpha = true ∧ (u.take i).all schemeChar = true then
        u.drop (i + 1)
      else u

/-- A character that ends the netloc in `urlsplit`. -/
def netlocEnd (c : Char) : Bool :=
  c == '/' || c == '?' || c == '#'

/-- Result of `urlparse`: the two components `parser.py` uses. -/
structure UrlParts where
  netloc : List Char
  path : List Char
deriving Repr, DecidableEq

/-- `urllib.parse.urlparse`, restricted to the `netloc`/`path` components:
optional scheme strip, `//`-introduced netloc with the mismatched-bracket
`ValueError`, then fragment and query removal. -/
def urlparseNP (u : List Char) : Except PyExc UrlParts :=
  let rest := stripScheme u
  if rest.take 2 = ['/', '/'] then
    let netloc := (rest.drop 2).takeWhile (fun c => !netlocEnd c)
    let rest2 := (rest.drop 2).dropWhile (fun c => !netlocEnd c)
    if (netloc.contains '[' && !netloc.contains ']') ||
       (netloc.contains ']' && !netloc.contains '[') then
      .error { kind := .valueError, message := "Invalid IPv6 URL" }
    else
      .ok { netloc := netloc
            path := (rest2.takeWhile (· != '#')).takeWhile (· != '?') }
  else
    .ok { netloc := []
          path := (rest.takeWhile (· != '#')).takeWhile (· != '?') }

/-- `re.search` for a pattern of the form `lit([A-Za-z0-9_-]+)`: leftmost
position where the literal matches and is followed by at least one class
character; the group is the maximal class run there. -/
def searchPat (lit : List Char) : List Char → Option (List Char)
  | [] => none
  | c :: t =>
    if lit.isPrefixOf (c :: t) then
      let g := ((c :: t).drop lit.length).takeWhile isShortChar
      if g.isEmpty then searchPat lit t else some g
    else searchPat lit t

/-- Backtracking over the greedy `[^/]+` of the fourth URL pattern: try the
middle-segment lengths from `k` down to 1. -/
def tryMiddle (s : List Char) : Nat → Option (List Char)
  | 0 => none
  | k + 1 =>
    let rest := s.drop (k + 1)
    if ("/reel/".data).isPrefixOf rest then
      let g := (rest.drop 6).takeWhile isShortChar
      if g.isEmpty then tryMiddle s k else some g
    else tryMiddle s k

/-- `re.search` for `instagram\.com/[^/]+/reel/([A-Za-z0-9_-]+)`. -/
def searchPat4 : List Char → Option (List Char)
  | [] => none
  | c :: t =>
    if ("instagram.com/".data).isPrefixOf (c :: t) then
      let afterLit := (c :: t).drop 14
      match tryMiddle afterLit ((afterLit.takeWhile (· != '/')).length) with
      | some g => some g
      | none => searchPat4 t
    else searchPat4 t

/-- The four `URL_PATTERNS`, tried in order on the cleaned URL; the first
pattern that matches decides (a later pattern is never consulted once an
earlier one has matched). -/
def firstGroup (clean : List Char) : Option (List Char) :=
  match searchPat ("instagram.com/reel/".data) clean with
  | some g => some g
  | none =>
    match searchPat ("instagram.com/p/".data) clean with
    | some g => some g
    | none =>
      match searchPat ("instagram.com/tv/".data) clean with
      | some g => some g
      | none => searchPat4 clean

/-- `ReelsURLParser.extract_shortcode`. -/
def extract_shortcode (v : PyValue) : Except PyExc String :=
  match v with
  | .vStr s =>
    if s.isEmpty then
      .error { kind := .invalidURL, message := "URL must be a non-empty string" }
    else
      match urlparseNP s.data with
      | .error e => .error e
      | .ok parts =>
        match firstGroup (parts.netloc ++ parts.path) with
        | none =>
          .error { kind := .invalidURL
                   message := "URL does not match any supported Instagram format" }
        | some g =>
          let sc : String := ⟨g⟩
          if shortcodeOK sc then .ok sc
          else .error { kind := .invalidURL, message := "Invalid shortcode format" }
  | _ => .error { kind := .invalidURL, message := "URL must be a non-empty string" }

/-- `ReelsURLParser.validate_url`: `try: extract; return True` catching only
`InvalidURLError`. -/
def validate_url (v : PyValue) : Except PyExc Bool :=
  match extract_shortcode v with
  | .ok _ => .ok true
  | .error e => if e.kind = .invalidURL then .ok false else .error e

/-- The canonical URL produced by `normalize_url`. -/
def canonicalURL (sc : String) : String :=
  "https://www.instagram.com/reel/" ++ sc ++ "/"

/-- `ReelsURLParser.normalize_url`. -/
def normalize_url (v : PyValue) : Except PyExc String :=
  match extract_shortcode v with
  | .ok sc => .ok (canonicalURL sc)
  | .error e => .error e

/-! ## Media analyzer (`app/media_analyzer.py`) -/

/-- `str.lower()` (ASCII), defined by structural recursion so that proofs
can evaluate it. -/
def strToLower (s : String) : String :=
  ⟨s.data.map Char.toLower⟩

/-- The fields of a yt-dlp info dict that `_is_video_content` consults.
`none` stands for an absent key or a JSON `null`. -/
structure MediaFields where
  ext : Option String := none
  vcodec : Option String := none
  duration : Option Int := none
deriving Repr, DecidableEq

/-- A probe response (yt-dlp info dict) as `analyze` consumes it. -/
structure YtdlpInfo where
  fields : MediaFields := {}
  typeIsPlaylist : Bool := false
  entries : List MediaFields := []
deriving Repr, DecidableEq

/-- `InstagramMediaAnalyzer._is_video_content`: extension whitelist, then
truthy `vcodec != 'none'`, then truthy positive `duration`. -/
def is_video_content (m : MediaFields) : Bool :=
  if strToLower (m.ext.getD "") ∈ ["mp4", "webm", "mov"] then true
  else if (match m.vcodec with
           | some s => !(s == "") && !(s == "none")
           | none => false) then true
  else if (match m.duration with
           | some d => !(d == 0) && decide (0 < d)
           | none => false) then true
  else false

/-- The classification half of the analyzer output. -/
inductive MediaType where
  | video
  | photo
  | carousel
deriving Repr, DecidableEq

/-- The analyzer result fields that drive routing. -/
structure AnalysisResult where
  media_type : MediaType
  is_carousel : Bool
  item_count : Nat
  requires_login : Bool
deriving Repr, DecidableEq

/-- `InstagramMediaAnalyzer.analyze`, classification part (the network fetch
that produces `info` is the caller's environment). -/
def analyze (info : YtdlpInfo) : AnalysisResult :=
  let is_carousel := info.typeIsPlaylist || !info.entries.isEmpty
  let item_count := if is_carousel then info.entries.length else 1
  if is_carousel then
    { media_type := .carousel, is_carousel := true, item_count := item_count
      requires_login := true }
  else if is_video_content info.fields then
    { media_type := .video, is_carousel := false, item_count := item_count
      requires_login := false }
  else
    { media_type := .photo, is_carousel := false, item_count := item_count
      requires_login := true }

/-- The classification exactly as the claim words it: a video is detected by
a video-typed extension, a non-null (`Option.none`) codec other than the
string `none`, or a positive duration. -/
def claimClassify (info : YtdlpInfo) : AnalysisResult :=
  if info.typeIsPlaylist || !info.entries.isEmpty then
    { media_type := .carousel
      is_carousel := true
      item_count := info.entries.length
      requires_login := true }
  else if (strToLower (info.fields.ext.getD "") ∈ ["mp4", "webm", "mov"]) ||
          (info.fields.vcodec ≠ none ∧ info.fields.vcodec ≠ some "none") ||
          (∃ d, info.fields.duration = some d ∧ 0 < d) then
    { media_type := .video, is_carousel := false, item_count := 1
      requires_login := false }
  else
    { media_type := .photo, is_carousel := false, item_count := 1
      requires_login := true }

/-- The classification with the one amendment the code forces: the declared
codec must also be non-empty (Python truthiness), not merely non-null. -/
def amendedClassify (info : YtdlpInfo) : AnalysisResult :=
  if info.typeIsPlaylist || !info.entries.isEmpty then
    { media_type := .carousel
      is_carousel := true
      item_count := info.entries.length
      requires_login := true }
  else if (strToLower (info.fields.ext.getD "") ∈ ["mp4", "webm", "mov"]) ||
          (∃ s, info.fields.vcodec = some s ∧ s ≠ "" ∧ s ≠ "none") ||
          (∃ d, info.fields.duration = some d ∧ 0 < d) then
    { media_type := .video, is_carousel := false, item_count := 1
      requires_login := false }
  else
    { media_type := .photo, is_carousel := false, item_count := 1
      requires_login := true }

/-! ## Downloader (`app/downloader.py`) and router (`app/downloader_router.py`) -/

/-- `pat in s` on character lists. -/
def containsSubList (pat : List Char) : List Char → Bool
  | [] => pat.isEmpty
  | c :: t => pat.isPrefixOf (c :: t) || containsSubList pat t

/-- `pat in s` (Python substring test). -/
def containsSub (s pat : String) : Bool :=
  containsSubList pat.data s.data

/-- The observable actions of one download request; network calls are
`probeCall`, `authAttempt` (yt-dlp with an account), `proxyAttempt` and
`instaloaderAttempt`. -/
inductive DlAction where
  | probeCall
  | checkExisting
  | authAttempt (username : String)
  | proxyAttempt
  | instaloaderAttempt
deriving Repr, DecidableEq

/-- Filename suffix test (the semantics of the glob `*suffix`). -/
def strEndsWith (s suf : String) : Bool :=
  suf.data.isSuffixOf s.data

/-- `possible_extensions` of `_check_existing_download`. -/
def possible_extensions : List String :=
  ["mp4", "webm", "mov", "jpg", "jpeg", "png"]

/-- The thumbnail scan of `_check_existing_download`: three glob patterns in
order, first hit wins. -/
def findThumb (shortcode : String) (files : List String) : Option String :=
  match files.filter (fun f => strEndsWith f (shortcode ++ "_thumb.jpg")) with
  | f :: _ => some f
  | [] =>
    match files.filter (fun f => strEndsWith f (shortcode ++ "_thumb.jpeg")) with
    | f :: _ => some f
    | [] =>
      match files.filter (fun f => strEndsWith f (shortcode ++ ".webp")) with
      | f :: _ => some f
      | [] => none

/-- The extension loop of `_check_existing_download`: for each extension the
glob `*{shortcode}.{ext}` keeps files ending with `shortcode.ext`. -/
def check_existing_go (shortcode : String) (files : List String) :
    List String → Option (String × Option String)
  | [] => none
  | ext :: rest =>
    match files.filter (fun f => strEndsWith f (shortcode ++ "." ++ ext)) with
    | f :: _ => some (f, findThumb shortcode files)
    | [] => check_existing_go shortcode files rest

/-- `ReelsDownloader._check_existing_download` over the target directory
listing (`files`, in directory-enumeration order). -/
def check_existing (shortcode : String) (files : List String) :
    Option (String × Option String) :=
  check_existing_go shortcode files possible_extensions

instance {ε α : Type} [DecidableEq ε] [DecidableEq α] : DecidableEq (Except ε α) :=
  fun x y =>
    match x, y with
    | .ok a, .ok b =>
      if h : a = b then .isTrue (by rw [h]) else .isFalse (by simp [h])
    | .ok _, .error _ => .isFalse (by simp)
    | .error _, .ok _ => .isFalse (by simp)
    | .error e, .error f =>
      if h : e = f then .isTrue (by rw [h]) else .isFalse (by simp [h])

/-- Environment of `_download_via_proxy`: the value (or exception) produced
by `get_media_urls`, whether the CDN fetch of the main media succeeds, and
whether the thumbnail fetch succeeds. -/
structure ProxyEnv where
  mediaData : Except PyExc (Option (List String))
  fetchExc : Option PyExc := none
  thumbFetchOk : Bool := true
deriving Repr, DecidableEq

/-- The extension sniffing of `_download_via_proxy` on the first media URL. -/
def sniffExt (u : String) : String × Bool :=
  if containsSub u ".mp4" then ("mp4", true)
  else if containsSub u ".jpg" || containsSub u "jpg" then ("jpg", false)
  else if containsSub u ".png" then ("png", false)
  else ("jpg", false)

/-- `ReelsDownloader._download_via_proxy`: returns media path, optional
thumbnail path, and the list of files it wrote into the target directory. -/
def download_via_proxy (shortcode date : String) (penv : ProxyEnv) :
    Except PyExc (String × Option String × List String) :=
  match penv.mediaData with
  | .error e => .error e
  | .ok none => .error { kind := .downloadFailed, message := "No media URLs found" }
  | .ok (some []) => .error { kind := .downloadFailed, message := "Empty media URLs list" }
  | .ok (some (mainUrl :: restUrls)) =>
    let ev := sniffExt mainUrl
    let mediaPath := date ++ "_" ++ shortcode ++ "." ++ ev.1
    match penv.fetchExc with
    | some e => .error e
    | none =>
      if !restUrls.isEmpty && ev.2 then
        if penv.thumbFetchOk then
          let thumbPath := date ++ "_" ++ shortcode ++ "_thumb.jpg"
          .ok (mediaPath, some thumbPath, [mediaPath, thumbPath])
        else
          .ok (mediaPath, none, [mediaPath])
      else
        .ok (mediaPath, none, [mediaPath])

/-- Environment of one `ReelsDownloader.download` call: the directory
listing, the constructor-time `has_auth` snapshot, the pool, the clock and
the randomness, and the outcomes of the two network strategies. -/
structure DlEnv where
  shortcode : String
  date : String
  files : List String
  has_auth : Bool
  pool : List InstagramAccount
  now : Nat
  pick : Nat
  authResult : String → Except PyExc (String × Option String)
  proxy : ProxyEnv

/-- `ReelsDownloader.download`: existing-file short-circuit, then at most one
authenticated yt-dlp attempt with a randomly selected account, then the
proxy strategy, then the generic all-methods-failed error.  Returns the
result, the account pool afterwards, and the trace of actions. -/
def ReelsDownloader.download (env : DlEnv) :
    Except PyExc (String × Option String) × List InstagramAccount × List DlAction :=
  match check_existing env.shortcode env.files with
  | some mt => (.ok mt, env.pool, [.checkExisting])
  | none =>
    let proxyStep := fun (pool : List InstagramAccount) (tr : List DlAction) =>
      match download_via_proxy env.shortcode env.date env.proxy with
      | .ok (m, t, _) => (Except.ok (m, t), pool, tr ++ [DlAction.proxyAttempt])
      | .error _ =>
        (Except.error
          { kind := .downloadFailed
            message := "All download methods failed. Content may be private or Instagram blocking access."
            details := [("shortcode", env.shortcode)] },
         pool, tr ++ [DlAction.proxyAttempt])
    if env.has_auth then
      match get_random_account env.pool env.now env.pick with
      | (some acc, healed) =>
        match env.authResult acc.username with
        | .ok r =>
          (.ok r, mark_account_success healed acc.username env.now,
           [.checkExisting, .authAttempt acc.username])
        | .error _ =>
          proxyStep (mark_account_failure healed acc.username env.now)
            [.checkExisting, .authAttempt acc.username]
      | (none, healed) => proxyStep healed [.checkExisting]
    else
      proxyStep env.pool [.checkExisting]

/-- Render a `MediaType` the way the Python strings do. -/
def MediaType.toStr : MediaType → String
  | .video => "video"
  | .photo => "photo"
  | .carousel => "carousel"

/-- `InstagramDownloaderRouter._get_credential_error_message`. -/
def credential_error_message (media_type : MediaType) (is_carousel : Bool) : String :=
  if is_carousel then
    "This is a carousel post with multiple items. yt-dlp can only download the first item. To download all items, configure Instagram credentials in .env file:\nINSTAGRAM_USERNAME=your_username\nINSTAGRAM_PASSWORD=your_password\nSee CAROUSEL_SUPPORT.md for details."
  else if media_type = .photo then
    "This is a photo post. yt-dlp does not support Instagram photos. To download photos, configure Instagram credentials in .env file:\nINSTAGRAM_USERNAME=your_username\nINSTAGRAM_PASSWORD=your_password\nWarning: Use a test account, not your main account."
  else
    "This content requires Instagram authentication. Configure credentials in .env file to enable this feature."

/-- `pathlib.Path.suffix`. -/
def pathSuffix (name : String) : String :=
  let cs := name.data
  match cs.reverse.findIdx? (· == '.') with
  | none => ""
  | some j =>
    let i := cs.length - 1 - j
    if 0 < i ∧ 0 < j then ⟨cs.drop i⟩ else ""

/-- Normalized router result: media paths (singleton outside the carousel
case), thumbnail, and the media-type string. -/
structure RouterResult where
  paths : List String
  thumb : Option String
  media_type : String
deriving Repr, DecidableEq

/-- Environment of one `InstagramDownloaderRouter.download` call. -/
structure RouterEnv where
  probe : Except PyExc YtdlpInfo
  has_credentials : Bool
  dl : DlEnv
  instaResult : Except PyExc (List String × Option String)

/-- `InstagramDownloaderRouter.download`: analyze (a network probe), then
either fail fast on missing credentials, run Instaloader, or run the yt-dlp
downloader. -/
def router_download (renv : RouterEnv) :
    Except PyExc RouterResult × List InstagramAccount × List DlAction :=
  match renv.probe with
  | .error e => (.error e, renv.dl.pool, [.probeCall])
  | .ok info =>
    let analysis := analyze info
    if analysis.requires_login then
      if !renv.has_credentials then
        (.error
          { kind := .downloadFailed
            message := credential_error_message analysis.media_type analysis.is_carousel
            details :=
              [("shortcode", renv.dl.shortcode),
               ("media_type", analysis.media_type.toStr),
               ("is_carousel", if analysis.is_carousel then "True" else "False"),
               ("solution", "Configure INSTAGRAM_USERNAME and INSTAGRAM_PASSWORD in .env file")] },
         renv.dl.pool, [.probeCall])
      else
        match renv.instaResult with
        | .ok pt =>
          (.ok { paths := pt.1, thumb := pt.2, media_type := analysis.media_type.toStr },
           renv.dl.pool, [.probeCall, .instaloaderAttempt])
        | .error e => (.error e, renv.dl.pool, [.probeCall, .instaloaderAttempt])
    else
      match ReelsDownloader.download renv.dl with
      | (.ok (m, t), pool2, tr) =>
        (.ok { paths := [m], thumb := t
               media_type := if strToLower (pathSuffix m) == ".mp4" then "video" else "photo" },
         pool2, .probeCall :: tr)
      | (.error e, pool2, tr) => (.error e, pool2, .probeCall :: tr)

/-! ## Concrete inputs used by witnesses and counterexamples -/

/-- A fresh account as built from configuration. -/
def acct1 : InstagramAccount := { username := "acct1", password := "pw1" }

/-- A second fresh account. -/
def acct2 : InstagramAccount := { username := "acct2", password := "pw2" }

/-- A two-account pool, both available. -/
def twoPool : List InstagramAccount := [acct1, acct2]

/-- Download environment: two available accounts, the authenticated attempt
rate-limited, the proxy strategy failing. -/
def envTwoAcct : DlEnv :=
  { shortcode := "ABCDEFGHIJK", date := "2024-01-01", files := [],
    has_auth := true, pool := twoPool, now := 0, pick := 0,
    authResult := fun _ =>
      .error { kind := .rateLimit, message := "Instagram rate limit exceeded, retry later" },
    proxy := { mediaData := .ok none } }

/-- Download environment: one account whose authenticated attempt raises the
typed `PrivateAccountError`, the proxy strategy failing. -/
def envPrivate : DlEnv :=
  { shortcode := "ABCDEFGHIJK", date := "2024-01-01", files := [],
    has_auth := true, pool := [acct1], now := 0, pick := 0,
    authResult := fun _ =>
      .error { kind := .privateAccount, message := "Content is private or unavailable",
               details := [("shortcode", "ABCDEFGHIJK")] },
    proxy := { mediaData := .ok none } }

/-- Download environment whose target directory already holds the media. -/
def envExisting : DlEnv :=
  { shortcode := "ABCDEFGHIJK", date := "2024-01-02",
    files := ["2024-01-01_ABCDEFGHIJK.mp4"],
    has_auth := false, pool := [], now := 0, pick := 0,
    authResult := fun _ => .error { kind := .downloadFailed, message := "" },
    proxy := { mediaData := .ok none } }

/-- Router environment over `envExisting`, probe classifying a video. -/
def renvExisting : RouterEnv :=
  { probe := .ok { fields := { ext := some "mp4" } }, has_credentials := false,
    dl := envExisting, instaResult := .error { kind := .downloadFailed, message := "" } }

/-- Download environment for a first, fresh proxy download. -/
def envFresh : DlEnv :=
  { shortcode := "ABCDEFGHIJK", date := "2024-01-02", files := [],
    has_auth := false, pool := [], now := 0, pick := 0,
    authResult := fun _ => .error { kind := .downloadFailed, message := "" },
    proxy :=
      { mediaData :=
          .ok (some ["https://cdn.example/video.mp4", "https://cdn.example/thumb.jpg"]) } }

/-- `envFresh` after the proxy wrote its media and thumbnail files. -/
def envSecond : DlEnv :=
  { envFresh with
    files := envFresh.files
      ++ ["2024-01-02_ABCDEFGHIJK.mp4", "2024-01-02_ABCDEFGHIJK_thumb.jpg"] }

/-- A probe response with an empty-string video codec and nothing else. -/
def cexInfo : YtdlpInfo := { fields := { vcodec := some "" } }

/-- A probe response with no video indicators at all (a photo). -/
def photoInfo : YtdlpInfo := {}

/-- Router environment: photo-classified content, no credentials. -/
def renvPhoto : RouterEnv :=
  { probe := .ok photoInfo, has_credentials := false,
    dl := envFresh, instaResult := .error { kind := .downloadFailed, message := "" } }

/-- An account currently blocked until time 100. -/
def blockedAcct : InstagramAccount :=
  { username := "blocked1", password := "pw3", is_blocked := true,
    blocked_until := some 100 }

/-! ## Helper lemmas -/

theorem mas_no_match (accs : List InstagramAccount) (u : String) (now : Nat)
    (h : ∀ a ∈ accs, a.username ≠ u) :
    mark_account_success accs u now = accs := by
  induction accs with
  | nil => rfl
  | cons a rest ih =>
    simp only [mark_account_success]
    rw [if_neg (h a (by simp))]
    rw [ih (fun b hb => h b (by simp [hb]))]

theorem mas_split (pre : List InstagramAccount) (a : InstagramAccount)
    (post : List InstagramAccount) (u : String) (now : Nat)
    (hpre : ∀ b ∈ pre, b.username ≠ u) (ha : a.username = u) :
    mark_account_success (pre ++ a :: post) u now = pre ++ a.mark_success now :: post := by
  induction pre with
  | nil => simp [mark_account_success, ha]
  | cons b rest ih =>
    simp only [List.cons_append, mark_account_success]
    rw [if_neg (hpre b (by simp))]
    rw [show rest.append (a :: post) = rest ++ a :: post from rfl,
        ih (fun c hc => hpre c (by simp [hc]))]

theorem maf_no_match (accs : List InstagramAccount) (u : String) (now : Nat)
    (h : ∀ a ∈ accs, a.username ≠ u) :
    mark_account_failure accs u now = accs := by
  induction accs with
  | nil => rfl
  | cons a rest ih =>
    simp only [mark_account_failure]
    rw [if_neg (h a (by simp))]
    rw [ih (fun b hb => h b (by simp [hb]))]

theorem maf_split (pre : List InstagramAccount) (a : InstagramAccount)
    (post : List InstagramAccount) (u : String) (now : Nat)
    (hpre : ∀ b ∈ pre, b.username ≠ u) (ha : a.username = u) :
    mark_account_failure (pre ++ a :: post) u now = pre ++ a.mark_failure now :: post := by
  induction pre with
  | nil => simp [mark_account_failure, ha]
  | cons b rest ih =>
    simp only [List.cons_append, mark_account_failure]
    rw [if_neg (hpre b (by simp))]
    rw [show rest.append (a :: post) = rest ++ a :: post from rfl,
        ih (fun c hc => hpre c (by simp [hc]))]

theorem mem_avail_is_avail (accs : List InstagramAccount) (now : Nat)
    (b : InstagramAccount) (hb : b ∈ availableAccounts accs now) :
    (b.is_available now).1 = true := by
  simp only [availableAccounts, List.mem_filterMap, List.mem_map] at hb
  obtain ⟨p, ⟨a, _, hpa⟩, hpb⟩ := hb
  by_cases h1 : p.1 = true
  · rw [if_pos h1] at hpb
    injection hpb with hpb
    subst hpb
    subst hpa
    unfold InstagramAccount.is_available at h1 ⊢
    rcases hbl : a.is_blocked with _ | _ <;> rcases hbu : a.blocked_until with _ | u
    · simp [hbl, hbu] at h1 ⊢
    · simp [hbl, hbu] at h1 ⊢
    · simp [hbl, hbu] at h1 ⊢
    · simp only [hbl, hbu] at h1 ⊢
      by_cases hlt : now < u
      · simp [hlt] at h1
      · simp [hlt] at h1 ⊢
  · rw [if_neg h1] at hpb
    exact absurd hpb (by simp)

theorem avail_not_blocked (b : InstagramAccount) (now : Nat)
    (h : (b.is_available now).1 = true) :
    ¬(b.is_blocked = true ∧ ∃ u, b.blocked_until = some u ∧ now < u) := by
  rintro ⟨hbl, u, hbu, hlt⟩
  unfold InstagramAccount.is_available at h
  simp [hbl, hbu, hlt] at h

theorem avail_empty_iff (accs : List InstagramAccount) (now : Nat) :
    availableAccounts accs now = [] ↔ ∀ a ∈ accs, (a.is_available now).1 = false := by
  simp only [availableAccounts, List.filterMap_eq_nil_iff, List.mem_map]
  constructor
  · intro h a ha
    have := h (a.is_available now) ⟨a, ha, rfl⟩
    by_cases hp : ((a.is_available now).1 = true)
    · rw [if_pos hp] at this; exact absurd this (by simp)
    · simpa using hp
  · rintro h p ⟨a, ha, rfl⟩
    rw [if_neg]
    simp [h a ha]

theorem minByRequests_mem (a : InstagramAccount) (rest : List InstagramAccount) :
    minByRequests a rest ∈ a :: rest := by
  induction rest generalizing a with
  | nil => simp [minByRequests]
  | cons c r ih =>
    unfold minByRequests at ih ⊢
    simp only [List.foldl_cons]
    by_cases hc : c.total_requests < a.total_requests
    · rw [if_pos hc]
      rcases List.mem_cons.mp (ih c) with h | h
      · simp [h]
      · simp [h]
    · rw [if_neg hc]
      rcases List.mem_cons.mp (ih a) with h | h
      · simp [h]
      · simp [h]

theorem is_video_iff (m : MediaFields) :
    is_video_content m = true ↔
      (strToLower (m.ext.getD "") ∈ ["mp4", "webm", "mov"]) ∨
      (∃ s, m.vcodec = some s ∧ s ≠ "" ∧ s ≠ "none") ∨
      (∃ d, m.duration = some d ∧ 0 < d) := by
  unfold is_video_content
  rcases m with ⟨ext, vcodec, duration⟩
  simp only
  rcases vcodec with _ | s <;> rcases duration with _ | d <;>
      by_cases he : (strToLower (ext.getD "") ∈ ["mp4", "webm", "mov"])
  · simp [he]
  · simp [he]
  · simp [he]
  · simp [he]
    omega
  · simp [he]
  · simp [he]
  · simp [he]
  · simp [he]
    by_cases hs : s = "" <;> by_cases hn : s = "none" <;> simp [hs, hn] <;> omega

theorem analyze_shape (info : YtdlpInfo) :
    analyze info = { media_type := .carousel, is_carousel := true,
                     item_count := info.entries.length, requires_login := true } ∨
    analyze info = { media_type := .video, is_carousel := false,
                     item_count := 1, requires_login := false } ∨
    analyze info = { media_type := .photo, is_carousel := false,
                     item_count := 1, requires_login := true } := by
  unfold analyze
  by_cases hc : (info.typeIsPlaylist || !info.entries.isEmpty) = true
  · simp [hc]
  · by_cases hv : is_video_content info.fields = true <;> simp [hc, hv]

theorem sniffExt_cases (u : String) :
    sniffExt u = ("mp4", true) ∨ sniffExt u = ("jpg", false) ∨ sniffExt u = ("png", false) := by
  unfold sniffExt
  split_ifs <;> simp

theorem dl_existing_short_circuit (env : DlEnv) (m : String) (t : Option String)
    (h : check_existing env.shortcode env.files = some (m, t)) :
    ReelsDownloader.download env = (.ok (m, t), env.pool, [.checkExisting]) := by
  unfold ReelsDownloader.download
  rw [h]

theorem proxy_ok_shape (sc date : String) (penv : ProxyEnv) (m : String)
    (t : Option String) (w : List String)
    (h : download_via_proxy sc date penv = .ok (m, t, w)) :
    (m = date ++ "_" ++ sc ++ "." ++ "mp4" ∧
      (w = [m] ∨ w = [m, date ++ "_" ++ sc ++ "_thumb.jpg"])) ∨
    (m = date ++ "_" ++ sc ++ "." ++ "jpg" ∧ w = [m]) ∨
    (m = date ++ "_" ++ sc ++ "." ++ "png" ∧ w = [m]) := by
  unfold download_via_proxy at h
  rcases hmd : penv.mediaData with e | o
  · rw [hmd] at h; exact absurd h (by simp)
  · rw [hmd] at h
    rcases o with _ | ls
    · exact absurd h (by simp)
    · rcases ls with _ | ⟨u, us⟩
      · exact absurd h (by simp)
      · dsimp only at h
        rcases hfe : penv.fetchExc with _ | e2
        · rw [hfe] at h
          dsimp only at h
          rcases sniffExt_cases u with hs | hs | hs <;> simp only [hs] at h
          · by_cases hr : us.isEmpty = true <;> simp only [hr] at h
            · simp only [Bool.not_true, Bool.false_and, Bool.false_eq_true,
                if_false, Except.ok.injEq, Prod.mk.injEq] at h
              obtain ⟨h1, _, h3⟩ := h
              exact Or.inl ⟨h1.symm, Or.inl (by rw [← h1, ← h3])⟩
            · simp only [Bool.not_false, Bool.true_and, if_true] at h
              by_cases ht : penv.thumbFetchOk = true <;> simp only [ht] at h
              · simp only [if_true, Except.ok.injEq, Prod.mk.injEq] at h
                obtain ⟨h1, _, h3⟩ := h
                exact Or.inl ⟨h1.symm, Or.inr (by rw [← h1, ← h3])⟩
              · simp only [Bool.false_eq_true, if_false, Except.ok.injEq,
                  Prod.mk.injEq] at h
                obtain ⟨h1, _, h3⟩ := h
                exact Or.inl ⟨h1.symm, Or.inl (by rw [← h1, ← h3])⟩
          · simp only [Bool.and_false, Bool.false_eq_true, if_false,
              Except.ok.injEq, Prod.mk.injEq] at h
            obtain ⟨h1, _, h3⟩ := h
            exact Or.inr (Or.inl ⟨h1.symm, by rw [← h1, ← h3]⟩)
          · simp only [Bool.and_false, Bool.false_eq_true, if_false,
              Except.ok.injEq, Prod.mk.injEq] at h
            obtain ⟨h1, _, h3⟩ := h
            exact Or.inr (Or.inr ⟨h1.symm, by rw [← h1, ← h3]⟩)
        · rw [hfe] at h
          exact absurd h (by simp)

theorem strEndsWith_suffix (s suf : String) :
    strEndsWith s suf = true ↔ suf.data <:+ s.data := by
  unfold strEndsWith
  exact List.isSuffixOf_iff_suffix

theorem ext_suffix_clash (x sc e1 e2 : String)
    (h : strEndsWith (x ++ "." ++ e1) (sc ++ "." ++ e2) = true) :
    ('.' :: e1.data <:+ '.' :: e2.data) ∨ ('.' :: e2.data <:+ '.' :: e1.data) := by
  rw [strEndsWith_suffix] at h
  have h1 : ('.' :: e1.data) <:+ (x ++ "." ++ e1).data := by
    rw [show (x ++ "." ++ e1).data = x.data ++ ('.' :: e1.data) by
      show x.data ++ '.' :: List.nil ++ e1.data = _
      simp]
    exact List.suffix_append _ _
  have h2 : ('.' :: e2.data) <:+ (x ++ "." ++ e1).data := by
    refine List.IsSuffix.trans ?_ h
    rw [show (sc ++ "." ++ e2).data = sc.data ++ ('.' :: e2.data) by
      show sc.data ++ '.' :: List.nil ++ e2.data = _
      simp]
    exact List.suffix_append _ _
  exact (List.suffix_or_suffix_of_suffix h2 h1).symm

theorem strEndsWith_ext_false (x sc : String) (e1 e2 : String)
    (hne : ¬('.' :: e1.data <:+ '.' :: e2.data) ∧ ¬('.' :: e2.data <:+ '.' :: e1.data)) :
    strEndsWith (x ++ "." ++ e1) (sc ++ "." ++ e2) = false := by
  rcases hE : strEndsWith (x ++ "." ++ e1) (sc ++ "." ++ e2) with _ | _
  · rfl
  · rcases ext_suffix_clash x sc e1 e2 hE with h | h
    · exact absurd h hne.1
    · exact absurd h hne.2

theorem strEndsWith_self_ext (pre mid e : String) :
    strEndsWith (pre ++ mid ++ "." ++ e) (mid ++ "." ++ e) = true := by
  rw [strEndsWith_suffix]
  rw [show (pre ++ mid ++ "." ++ e).data
      = pre.data ++ (mid ++ "." ++ e).data by simp]
  exact List.suffix_append _ _

theorem check_go_none_iff (sc : String) (files : List String) (exts : List String) :
    check_existing_go sc files exts = none ↔
      ∀ e ∈ exts, files.filter (fun f => strEndsWith f (sc ++ "." ++ e)) = [] := by
  induction exts with
  | nil => simp [check_existing_go]
  | cons e rest ih =>
    unfold check_existing_go
    rcases hf : files.filter (fun f => strEndsWith f (sc ++ "." ++ e)) with _ | ⟨f, fs⟩
    · simp only [List.forall_mem_cons, hf, true_and]
      exact ih
    · simp only [List.forall_mem_cons, hf]
      constructor
      · intro h; exact absurd h (by simp)
      · rintro ⟨h1, _⟩; exact absurd h1 (by simp)

theorem filter_head_match (m : String) (rest : List String) (p : String → Bool)
    (h : p m = true) : (m :: rest).filter p = m :: rest.filter p := by
  simp [List.filter, h]

theorem proxy_then_check (sc date : String) (penv : ProxyEnv) (m : String)
    (t : Option String) (w : List String) (files : List String)
    (hdl : download_via_proxy sc date penv = .ok (m, t, w))
    (hnone : check_existing sc files = none) :
    ∃ t2, check_existing sc (files ++ w) = some (m, t2) := by
  have hfilters := (check_go_none_iff sc files possible_extensions).mp hnone
  have hmp4 := hfilters "mp4" (by simp [possible_extensions])
  have hwebm := hfilters "webm" (by simp [possible_extensions])
  have hmov := hfilters "mov" (by simp [possible_extensions])
  have hjpg := hfilters "jpg" (by simp [possible_extensions])
  have hjpeg := hfilters "jpeg" (by simp [possible_extensions])
  rcases proxy_ok_shape sc date penv m t w hdl with ⟨hm, hw⟩ | ⟨hm, hw⟩ | ⟨hm, hw⟩
  · refine ⟨findThumb sc (files ++ w), ?_⟩
    have hpos : strEndsWith m (sc ++ "." ++ "mp4") = true := by
      rw [hm]; exact strEndsWith_self_ext (date ++ "_") sc "mp4"
    unfold check_existing possible_extensions check_existing_go
    rw [List.filter_append, hmp4, List.nil_append]
    rcases hw with hw | hw <;> subst hw <;>
      rw [filter_head_match m _ _ hpos]
  · subst hw
    have hpos : strEndsWith m (sc ++ "." ++ "jpg") = true := by
      rw [hm]; exact strEndsWith_self_ext (date ++ "_") sc "jpg"
    have hn1 : strEndsWith m (sc ++ "." ++ "mp4") = false := by
      rw [hm]; exact strEndsWith_ext_false _ _ _ _ (by decide)
    have hn2 : strEndsWith m (sc ++ "." ++ "webm") = false := by
      rw [hm]; exact strEndsWith_ext_false _ _ _ _ (by decide)
    have hn3 : strEndsWith m (sc ++ "." ++ "mov") = false := by
      rw [hm]; exact strEndsWith_ext_false _ _ _ _ (by decide)
    refine ⟨findThumb sc (files ++ [m]), ?_⟩
    unfold check_existing possible_extensions check_existing_go
    rw [List.filter_append, hmp4, List.nil_append]
    simp only [List.filter, hn1]
    unfold check_existing_go
    rw [List.filter_append, hwebm, List.nil_append]
    simp only [List.filter, hn2]
    unfold check_existing_go
    rw [List.filter_append, hmov, List.nil_append]
    simp only [List.filter, hn3]
    unfold check_existing_go
    rw [List.filter_append, hjpg, List.nil_append]
    simp only [List.filter, hpos]
  · subst hw
    have hpos : strEndsWith m (sc ++ "." ++ "png") = true := by
      rw [hm]; exact strEndsWith_self_ext (date ++ "_") sc "png"
    have hn1 : strEndsWith m (sc ++ "." ++ "mp4") = false := by
      rw [hm]; exact strEndsWith_ext_false _ _ _ _ (by decide)
    have hn2 : strEndsWith m (sc ++ "." ++ "webm") = false := by
      rw [hm]; exact strEndsWith_ext_false _ _ _ _ (by decide)
    have hn3 : strEndsWith m (sc ++ "." ++ "mov") = false := by
      rw [hm]; exact strEndsWith_ext_false _ _ _ _ (by decide)
    have hn4 : strEndsWith m (sc ++ "." ++ "jpg") = false := by
      rw [hm]; exact strEndsWith_ext_false _ _ _ _ (by decide)
    have hn5 : strEndsWith m (sc ++ "." ++ "jpeg") = false := by
      rw [hm]; exact strEndsWith_ext_false _ _ _ _ (by decide)
    refine ⟨findThumb sc (files ++ [m]), ?_⟩
    unfold check_existing possible_extensions check_existing_go
    rw [List.filter_append, hmp4, List.nil_append]
    simp only [List.filter, hn1]
    unfold check_existing_go
    rw [List.filter_append, hwebm, List.nil_append]
    simp only [List.filter, hn2]
    unfold check_existing_go
    rw [List.filter_append, hmov, List.nil_append]
    simp only [List.filter, hn3]
    unfold check_existing_go
    rw [List.filter_append, hjpg, List.nil_append]
    simp only [List.filter, hn4]
    unfold check_existing_go
    rw [List.filter_append, hjpeg, List.nil_append]
    simp only [List.filter, hn5]
    unfold check_existing_go
    rw [List.filter_append, hfilters "png" (by simp [possible_extensions]), List.nil_append]
    simp only [List.filter, hpos]

/-! ## Claim theorems -/

/-- C1: after exactly 3 consecutive `mark_failure` calls with no intervening
`mark_success`, the account is blocked with `blocked_until` one hour after
the third failure; `is_available` is false strictly before that mark,
stays true after the first two failures, and the first check at or after
the mark returns true and clears the blocked flag and `blocked_until`. -/
theorem three_failures_block (a0 : InstagramAccount)
    (hb : a0.is_blocked = false) (hf : a0.failed_requests = 0)
    (t1 t2 t3 : Nat) :
    (∀ t, ((a0.mark_failure t1).is_available t).1 = true) ∧
    (∀ t, (((a0.mark_failure t1).mark_failure t2).is_available t).1 = true) ∧
    (((a0.mark_failure t1).mark_failure t2).mark_failure t3).is_blocked = true ∧
    (((a0.mark_failure t1).mark_failure t2).mark_failure t3).blocked_until
      = some (t3 + hourSecs) ∧
    (∀ t, t < t3 + hourSecs →
      ((((a0.mark_failure t1).mark_failure t2).mark_failure t3).is_available t).1 = false) ∧
    (∀ t, t3 + hourSecs ≤ t →
      ((((a0.mark_failure t1).mark_failure t2).mark_failure t3).is_available t)
        = (true,
           { (((a0.mark_failure t1).mark_failure t2).mark_failure t3) with
              is_blocked := false, blocked_until := none })) := by
  simp only [InstagramAccount.mark_failure, hf]
  norm_num
  refine ⟨?_, ?_, ?_, ?_⟩
  · intro t
    simp [InstagramAccount.is_available, hb]
  · intro t
    simp [InstagramAccount.is_available, hb]
  · intro t ht
    simp [InstagramAccount.is_available, ht]
  · intro t ht
    simp [InstagramAccount.is_available, Nat.not_lt.mpr ht]

/-- Witness for C1 at a fresh account and failure times 10, 20, 30. -/
theorem three_failures_block_witness :
    acct1.is_blocked = false ∧ acct1.failed_requests = 0 ∧
    ((∀ t, ((acct1.mark_failure 10).is_available t).1 = true) ∧
     (∀ t, (((acct1.mark_failure 10).mark_failure 20).is_available t).1 = true) ∧
     (((acct1.mark_failure 10).mark_failure 20).mark_failure 30).is_blocked = true ∧
     (((acct1.mark_failure 10).mark_failure 20).mark_failure 30).blocked_until
       = some (30 + hourSecs) ∧
     (∀ t, t < 30 + hourSecs →
       ((((acct1.mark_failure 10).mark_failure 20).mark_failure 30).is_available t).1
         = false) ∧
     (∀ t, 30 + hourSecs ≤ t →
       ((((acct1.mark_failure 10).mark_failure 20).mark_failure 30).is_available t)
         = (true,
            { (((acct1.mark_failure 10).mark_failure 20).mark_failure 30) with
               is_blocked := false, blocked_until := none }))) :=
  ⟨rfl, rfl, three_failures_block acct1 rfl rfl 10 20 30⟩

/-- C2 counterexample: with two available accounts and a failing
authenticated attempt, the downloader performs exactly one authenticated
attempt and then the proxy attempt, even though an available account
remains — it does not select another account and retry. -/
theorem single_auth_cex :
    (availableAccounts twoPool 0).length = 2 ∧
    (ReelsDownloader.download envTwoAcct).2.2
      = [.checkExisting, .authAttempt "acct1", .proxyAttempt] ∧
    ((ReelsDownloader.download envTwoAcct).2.2.countP
      (fun a => match a with | .authAttempt _ => true | _ => false)) = 1 ∧
    DlAction.proxyAttempt ∈ (ReelsDownloader.download envTwoAcct).2.2 ∧
    (availableAccounts (ReelsDownloader.download envTwoAcct).2.1 0).length = 2 := by
  refine ⟨rfl, rfl, rfl, ?_, rfl⟩
  decide

/-- C2 amended: when the authenticated attempt with the selected account
fails, the downloader records the failure on that account and falls through
to the proxy strategy immediately, with no second authenticated attempt in
the same request. -/
theorem single_auth_retry_amended (env : DlEnv) (acc : InstagramAccount) (e : PyExc)
    (h1 : check_existing env.shortcode env.files = none)
    (h2 : env.has_auth = true)
    (h3 : (get_random_account env.pool env.now env.pick).1 = some acc)
    (h4 : env.authResult acc.username = .error e) :
    (ReelsDownloader.download env).2.2
      = [.checkExisting, .authAttempt acc.username, .proxyAttempt] ∧
    (ReelsDownloader.download env).2.1
      = mark_account_failure (get_random_account env.pool env.now env.pick).2
          acc.username env.now := by
  unfold ReelsDownloader.download
  rw [h1, h2]
  rcases hga : get_random_account env.pool env.now env.pick with ⟨o, healed⟩
  rw [hga] at h3
  simp only at h3
  subst h3
  simp only
  rw [h4]
  simp only
  rcases hdp : download_via_proxy env.shortcode env.date env.proxy with e2 | r
  · simp [hdp]
  · simp [hdp]

/-- Witness for C2's amended theorem at `envTwoAcct`. -/
theorem single_auth_retry_amended_witness :
    check_existing envTwoAcct.shortcode envTwoAcct.files = none ∧
    envTwoAcct.has_auth = true ∧
    (get_random_account envTwoAcct.pool envTwoAcct.now envTwoAcct.pick).1 = some acct1 ∧
    envTwoAcct.authResult acct1.username
      = .error { kind := .rateLimit, message := "Instagram rate limit exceeded, retry later" } ∧
    ((ReelsDownloader.download envTwoAcct).2.2
      = [.checkExisting, .authAttempt acct1.username, .proxyAttempt] ∧
     (ReelsDownloader.download envTwoAcct).2.1
      = mark_account_failure
          (get_random_account envTwoAcct.pool envTwoAcct.now envTwoAcct.pick).2
          acct1.username envTwoAcct.now) :=
  ⟨rfl, rfl, by decide, rfl,
   single_auth_retry_amended envTwoAcct acct1
     { kind := .rateLimit, message := "Instagram rate limit exceeded, retry later" }
     rfl rfl (by decide) rfl⟩

/-- C3 counterexample: the router probes (a network call) before the
existing-file check, so even when the target directory already contains the
matching media file, the trace begins with the probe: the existing path is
not returned before every network call. -/
theorem existing_probe_cex :
    check_existing envExisting.shortcode envExisting.files
      = some ("2024-01-01_ABCDEFGHIJK.mp4", none) ∧
    router_download renvExisting
      = (.ok { paths := ["2024-01-01_ABCDEFGHIJK.mp4"], thumb := none,
               media_type := "video" },
         [], [.probeCall, .checkExisting]) ∧
    DlAction.probeCall ∈ (router_download renvExisting).2.2 := by
  refine ⟨?_, ?_, ?_⟩ <;> decide

/-- C3 amended: inside the yt-dlp downloader the existing-file check does
short-circuit before any strategy attempt and returns the existing path
(the router's probe still runs first); the proxy writer names its media
file `date_shortcode.ext` with a recognized extension, so a second call
whose directory now holds the files written by a successful first proxy
call returns the same media path via the short-circuit alone. -/
theorem existing_short_circuit_amended :
    (∀ (env : DlEnv) (m : String) (t : Option String),
      check_existing env.shortcode env.files = some (m, t) →
      ReelsDownloader.download env = (.ok (m, t), env.pool, [.checkExisting])) ∧
    (∀ (sc date : String) (penv : ProxyEnv) (m : String) (t : Option String)
        (w : List String),
      download_via_proxy sc date penv = .ok (m, t, w) →
      ∃ e ∈ possible_extensions, m = date ++ "_" ++ sc ++ "." ++ e) ∧
    (∀ (env : DlEnv) (m : String) (t : Option String) (w : List String),
      check_existing env.shortcode env.files = none →
      env.has_auth = false →
      download_via_proxy env.shortcode env.date env.proxy = .ok (m, t, w) →
      (ReelsDownloader.download env).1 = .ok (m, t)) ∧
    (∀ (env env2 : DlEnv) (m : String) (t : Option String) (w : List String),
      check_existing env.shortcode env.files = none →
      download_via_proxy env.shortcode env.date env.proxy = .ok (m, t, w) →
      env2.shortcode = env.shortcode →
      env2.files = env.files ++ w →
      ∃ t2, ReelsDownloader.download env2 = (.ok (m, t2), env2.pool, [.checkExisting])) := by
  refine ⟨dl_existing_short_circuit, ?_, ?_, ?_⟩
  · intro sc date penv m t w h
    rcases proxy_ok_shape sc date penv m t w h with ⟨hm, _⟩ | ⟨hm, _⟩ | ⟨hm, _⟩
    · exact ⟨"mp4", by simp [possible_extensions], hm⟩
    · exact ⟨"jpg", by simp [possible_extensions], hm⟩
    · exact ⟨"png", by simp [possible_extensions], hm⟩
  · intro env m t w hch hauth hp
    unfold ReelsDownloader.download
    rw [hch, hauth]
    simp only [Bool.false_eq_true, if_false]
    rw [hp]
  · intro env env2 m t w hch hp hsc hfiles
    obtain ⟨t2, hchk⟩ :=
      proxy_then_check env.shortcode env.date env.proxy m t w env.files hp hch
    refine ⟨t2, dl_existing_short_circuit env2 m t2 ?_⟩
    rw [hsc, hfiles]
    exact hchk

/-- Witness for C3's amended theorem: a fresh proxy download writes
`2024-01-02_ABCDEFGHIJK.mp4` (and a thumbnail), and the second call over the
grown directory returns that same media path from the short-circuit. -/
theorem existing_short_circuit_amended_witness :
    check_existing envFresh.shortcode envFresh.files = none ∧
    download_via_proxy envFresh.shortcode envFresh.date envFresh.proxy
      = .ok ("2024-01-02_ABCDEFGHIJK.mp4", some "2024-01-02_ABCDEFGHIJK_thumb.jpg",
             ["2024-01-02_ABCDEFGHIJK.mp4", "2024-01-02_ABCDEFGHIJK_thumb.jpg"]) ∧
    envSecond.shortcode = envFresh.shortcode ∧
    envSecond.files = envFresh.files
      ++ ["2024-01-02_ABCDEFGHIJK.mp4", "2024-01-02_ABCDEFGHIJK_thumb.jpg"] ∧
    (∃ t2, ReelsDownloader.download envSecond
      = (.ok ("2024-01-02_ABCDEFGHIJK.mp4", t2), envSecond.pool, [.checkExisting])) :=
  ⟨rfl, by decide, rfl, rfl,
   existing_short_circuit_amended.2.2.2 envFresh envSecond
     "2024-01-02_ABCDEFGHIJK.mp4" (some "2024-01-02_ABCDEFGHIJK_thumb.jpg")
     ["2024-01-02_ABCDEFGHIJK.mp4", "2024-01-02_ABCDEFGHIJK_thumb.jpg"]
     rfl (by decide) rfl rfl⟩

/-- C4: when every strategy fails, `ReelsDownloader.download` surfaces the
generic all-methods-failed `DownloadFailedError`, even though the
authenticated attempt raised the typed `PrivateAccountError` along the way
(the typed error is swallowed by the blanket `except`, contradicting the
docstring of `download`). -/
theorem generic_error_surfaces :
    (∃ e, envPrivate.authResult "acct1" = .error e ∧ e.kind = .privateAccount) ∧
    (ReelsDownloader.download envPrivate).1
      = .error { kind := .downloadFailed,
                 message := "All download methods failed. Content may be private or Instagram blocking access.",
                 details := [("shortcode", "ABCDEFGHIJK")] } ∧
    (ReelsDownloader.download envPrivate).2.2
      = [.checkExisting, .authAttempt "acct1", .proxyAttempt] :=
  ⟨⟨_, rfl, rfl⟩, rfl, rfl⟩

/-- C5: for content the probe classifies as photo or carousel, with no
credentials configured, the router raises a `DownloadFailedError` whose
message names INSTAGRAM_USERNAME and INSTAGRAM_PASSWORD and whose details
carry the solution entry, and no strategy (authenticated, Instaloader, or
proxy) is attempted — the trace is the probe alone. -/
theorem missing_credentials_fail_fast (renv : RouterEnv) (info : YtdlpInfo)
    (hp : renv.probe = .ok info)
    (hmt : (analyze info).media_type = .photo ∨ (analyze info).media_type = .carousel)
    (hc : renv.has_credentials = false) :
    ∃ e : PyExc,
      router_download renv = (.error e, renv.dl.pool, [.probeCall]) ∧
      e.kind = .downloadFailed ∧
      containsSub e.message "INSTAGRAM_USERNAME" = true ∧
      containsSub e.message "INSTAGRAM_PASSWORD" = true ∧
      ("solution", "Configure INSTAGRAM_USERNAME and INSTAGRAM_PASSWORD in .env file")
        ∈ e.details := by
  rcases analyze_shape info with hs | hs | hs
  · refine ⟨⟨.downloadFailed, credential_error_message .carousel true,
      [("shortcode", renv.dl.shortcode), ("media_type", "carousel"),
       ("is_carousel", "True"),
       ("solution", "Configure INSTAGRAM_USERNAME and INSTAGRAM_PASSWORD in .env file")]⟩,
      ?_, rfl,
      (show containsSub (credential_error_message .carousel true) "INSTAGRAM_USERNAME" = true
        by decide),
      (show containsSub (credential_error_message .carousel true) "INSTAGRAM_PASSWORD" = true
        by decide),
      by simp⟩
    unfold router_download
    rw [hp]
    simp only [hs, hc]
    rfl
  · rw [hs] at hmt
    simp at hmt
  · refine ⟨⟨.downloadFailed, credential_error_message .photo false,
      [("shortcode", renv.dl.shortcode), ("media_type", "photo"),
       ("is_carousel", "False"),
       ("solution", "Configure INSTAGRAM_USERNAME and INSTAGRAM_PASSWORD in .env file")]⟩,
      ?_, rfl,
      (show containsSub (credential_error_message .photo false) "INSTAGRAM_USERNAME" = true
        by decide),
      (show containsSub (credential_error_message .photo false) "INSTAGRAM_PASSWORD" = true
        by decide),
      by simp⟩
    unfold router_download
    rw [hp]
    simp only [hs, hc]
    rfl

/-- Witness for C5 at a photo-classified probe response with no
credentials. -/
theorem missing_credentials_fail_fast_witness :
    renvPhoto.probe = .ok photoInfo ∧
    ((analyze photoInfo).media_type = .photo ∨
      (analyze photoInfo).media_type = .carousel) ∧
    renvPhoto.has_credentials = false ∧
    (∃ e : PyExc,
      router_download renvPhoto = (.error e, renvPhoto.dl.pool, [.probeCall]) ∧
      e.kind = .downloadFailed ∧
      containsSub e.message "INSTAGRAM_USERNAME" = true ∧
      containsSub e.message "INSTAGRAM_PASSWORD" = true ∧
      ("solution", "Configure INSTAGRAM_USERNAME and INSTAGRAM_PASSWORD in .env file")
        ∈ e.details) :=
  ⟨rfl, Or.inl rfl, rfl,
   missing_credentials_fail_fast renvPhoto photoInfo rfl (Or.inl rfl) rfl⟩

/-- C6 counterexample: a probe response whose `vcodec` is the empty string
is non-null and differs from the string `none`, so the claimed rule makes
it a video, but `analyze` classifies it as a photo (Python truthiness
rejects the empty string). -/
theorem classify_claim_cex : analyze cexInfo ≠ claimClassify cexInfo := by
  have h1 : (analyze cexInfo).media_type = MediaType.photo := rfl
  have h2 : claimClassify cexInfo
      = { media_type := .video, is_carousel := false, item_count := 1,
          requires_login := false } := by
    unfold claimClassify
    rw [if_neg (by simp [cexInfo]), if_pos (by decide)]
  intro h
  rw [h, h2] at h1
  simp at h1

/-- C6 amended: `analyze` classifies exactly as the claim states once the
codec condition reads a non-empty codec other than the string `none`:
containers are carousels with `item_count` the container size and
`requires_login` true; otherwise a video-typed extension, such a codec, or
a positive duration gives video with `requires_login` false; otherwise
photo with `requires_login` true. -/
theorem classify_amended (info : YtdlpInfo) : analyze info = amendedClassify info := by
  unfold analyze amendedClassify
  by_cases hc : (info.typeIsPlaylist || !info.entries.isEmpty) = true
  · simp [hc]
  · rw [if_neg hc, if_neg hc]
    simp only [Bool.or_eq_true, decide_eq_true_eq]
    simp only [Bool.or_eq_true, Bool.not_eq_true, not_or] at hc
    by_cases hv : is_video_content info.fields = true
    · rw [if_pos hv, if_pos (or_assoc.mpr ((is_video_iff info.fields).mp hv))]
      simp at hc
      simp [hc.1, hc.2]
    · rw [if_neg hv, if_neg (fun h => hv ((is_video_iff info.fields).mpr (or_assoc.mp h)))]
      simp at hc
      simp [hc.1, hc.2]

/-- C7: neither selection policy ever returns an unavailable account —
a returned account passes `is_available` and is not blocked with an
unexpired `blocked_until` — and each returns the `none` sentinel exactly
when no account in the pool is available. -/
theorem selection_never_blocked (accs : List InstagramAccount) (now k : Nat) :
    (∀ b, (get_random_account accs now k).1 = some b →
      (b.is_available now).1 = true ∧
      ¬(b.is_blocked = true ∧ ∃ u, b.blocked_until = some u ∧ now < u)) ∧
    (∀ b, (get_least_used_account accs now).1 = some b →
      (b.is_available now).1 = true ∧
      ¬(b.is_blocked = true ∧ ∃ u, b.blocked_until = some u ∧ now < u)) ∧
    ((get_random_account accs now k).1 = none ↔
      ∀ a ∈ accs, (a.is_available now).1 = false) ∧
    ((get_least_used_account accs now).1 = none ↔
      ∀ a ∈ accs, (a.is_available now).1 = false) := by
  have hrand : ∀ b, (get_random_account accs now k).1 = some b →
      b ∈ availableAccounts accs now := by
    intro b h
    unfold get_random_account at h
    by_cases he : (availableAccounts accs now).isEmpty
    · rw [if_pos he] at h; exact absurd h (by simp)
    · rw [if_neg he] at h
      simp only at h
      exact List.getElem?_mem h
  have hleast : ∀ b, (get_least_used_account accs now).1 = some b →
      b ∈ availableAccounts accs now := by
    intro b h
    unfold get_least_used_account at h
    rcases hav : availableAccounts accs now with _ | ⟨a, rest⟩
    · rw [hav] at h; exact absurd h (by simp)
    · rw [hav] at h
      simp only at h
      injection h with h
      rw [← h]
      exact minByRequests_mem a rest
  refine ⟨?_, ?_, ?_, ?_⟩
  · intro b h
    have h1 := mem_avail_is_avail accs now b (hrand b h)
    exact ⟨h1, avail_not_blocked b now h1⟩
  · intro b h
    have h1 := mem_avail_is_avail accs now b (hleast b h)
    exact ⟨h1, avail_not_blocked b now h1⟩
  · rw [← avail_empty_iff]
    unfold get_random_account
    constructor
    · intro h
      rcases hav : availableAccounts accs now with _ | ⟨a, rest⟩
      · rfl
      · exfalso
        rw [if_neg (by simp [hav])] at h
        rw [hav] at h
        simp only at h
        have hlt : k % (a :: rest).length < (a :: rest).length :=
          Nat.mod_lt _ (by simp)
        rw [List.getElem?_eq_getElem hlt] at h
        exact absurd h (by simp)
    · intro h
      rw [if_pos (by simp [h])]
  · rw [← avail_empty_iff]
    unfold get_least_used_account
    rcases hav : availableAccounts accs now with _ | ⟨a, rest⟩
    · simp
    · simp

/-- Witness for C7: a pool with one blocked and one fresh account selects
the fresh one, which is indeed available and not blocked-with-unexpired
cool-down. -/
theorem selection_never_blocked_witness :
    (get_random_account [blockedAcct, acct2] 0 0).1 = some acct2 ∧
    ((acct2.is_available 0).1 = true ∧
      ¬(acct2.is_blocked = true ∧ ∃ u, acct2.blocked_until = some u ∧ 0 < u)) :=
  ⟨by decide, (selection_never_blocked [blockedAcct, acct2] 0 0).1 acct2 (by decide)⟩

/-- C10: `mark_account_success` and `mark_account_failure` leave every
account unchanged when no username matches; when one does, only the first
matching account in stored order is mutated and all others are unchanged. -/
theorem mark_account_frame (u : String) (now : Nat) :
    (∀ accs : List InstagramAccount, (∀ a ∈ accs, a.username ≠ u) →
      mark_account_success accs u now = accs ∧
      mark_account_failure accs u now = accs) ∧
    (∀ (pre : List InstagramAccount) (a : InstagramAccount)
        (post : List InstagramAccount), (∀ b ∈ pre, b.username ≠ u) →
      a.username = u →
      mark_account_success (pre ++ a :: post) u now
        = pre ++ a.mark_success now :: post ∧
      mark_account_failure (pre ++ a :: post) u now
        = pre ++ a.mark_failure now :: post) :=
  ⟨fun accs h => ⟨mas_no_match accs u now h, maf_no_match accs u now h⟩,
   fun pre a post hpre ha => ⟨mas_split pre a post u now hpre ha,
     maf_split pre a post u now hpre ha⟩⟩

/-- Witness for C10: marking `acct2` in the pool `[acct1, acct2, acct1]`
mutates only the middle account. -/
theorem mark_account_frame_witness :
    (∀ b ∈ [acct1], b.username ≠ "acct2") ∧
    acct2.username = "acct2" ∧
    (mark_account_success ([acct1] ++ acct2 :: [acct1]) "acct2" 5
       = [acct1] ++ acct2.mark_success 5 :: [acct1] ∧
     mark_account_failure ([acct1] ++ acct2 :: [acct1]) "acct2" 5
       = [acct1] ++ acct2.mark_failure 5 :: [acct1]) :=
  ⟨by decide, rfl, (mark_account_frame "acct2" 5).2 [acct1] acct2 [acct1] (by decide) rfl⟩


theorem extract_ok_shortcodeOK (v : PyValue) (sc : String)
    (h : extract_shortcode v = .ok sc) : shortcodeOK sc = true := by
  unfold extract_shortcode at h
  rcases v with _ | s | n
  · exact absurd h (by simp)
  · dsimp only at h
    by_cases he : s.isEmpty = true
    · rw [if_pos he] at h
      exact absurd h (by simp)
    · rw [if_neg he] at h
      rcases hu : urlparseNP s.data with e | parts
      · rw [hu] at h; exact absurd h (by simp)
      · rw [hu] at h
        dsimp only at h
        rcases hg : firstGroup (parts.netloc ++ parts.path) with _ | g
        · rw [hg] at h; exact absurd h (by simp)
        · rw [hg] at h
          dsimp only at h
          by_cases hok : shortcodeOK ⟨g⟩ = true
          · rw [if_pos hok] at h
            injection h with h
            rw [← h]
            exact hok
          · rw [if_neg hok] at h
            exact absurd h (by simp)
  · exact absurd h (by simp)

theorem urlparse_error_shape (u : List Char) (e : PyExc)
    (h : urlparseNP u = .error e) :
    e = { kind := .valueError, message := "Invalid IPv6 URL" } := by
  unfold urlparseNP at h
  dsimp only at h
  split_ifs at h
  all_goals
    first
      | (injection h with h; exact h.symm)
      | exact absurd h (by simp)

theorem extract_error_kinds (v : PyValue) (e : PyExc)
    (h : extract_shortcode v = .error e) :
    e.kind = .invalidURL ∨ e = { kind := .valueError, message := "Invalid IPv6 URL" } := by
  unfold extract_shortcode at h
  rcases v with _ | s | n
  · injection h with h; rw [← h]; exact Or.inl rfl
  · dsimp only at h
    by_cases he : s.isEmpty = true
    · rw [if_pos he] at h
      injection h with h; rw [← h]; exact Or.inl rfl
    · rw [if_neg he] at h
      rcases hu : urlparseNP s.data with e2 | parts
      · rw [hu] at h
        dsimp only at h
        injection h with h
        rw [← h]
        exact Or.inr (urlparse_error_shape s.data e2 hu)
      · rw [hu] at h
        dsimp only at h
        rcases hg : firstGroup (parts.netloc ++ parts.path) with _ | g
        · rw [hg] at h
          injection h with h; rw [← h]; exact Or.inl rfl
        · rw [hg] at h
          dsimp only at h
          by_cases hok : shortcodeOK ⟨g⟩ = true
          · rw [if_pos hok] at h
            exact absurd h (by simp)
          · rw [if_neg hok] at h
            injection h with h; rw [← h]; exact Or.inl rfl
  · injection h with h; rw [← h]; exact Or.inl rfl

/-- C9 counterexample: for the string input with an unclosed bracket in the
authority, `urlparse` raises `ValueError`, which `validate_url` does not
catch (it catches only `InvalidURLError`), so `validate_url` does not
return a boolean. -/
theorem validate_exception_cex :
    validate_url (.vStr "https://[")
      = .error { kind := .valueError, message := "Invalid IPv6 URL" } := by
  decide

/-- C9 amended: `validate_url` returns `True` exactly when
`extract_shortcode` succeeds, returns `False` (raising nothing) for `None`,
non-strings and the empty string and whenever `extract_shortcode` raises
`InvalidURLError`; the one escape is `urlparse`'s `ValueError`, which
propagates. -/
theorem validate_url_amended :
    (∀ v : PyValue,
      (validate_url v = .ok true ↔ ∃ sc, extract_shortcode v = .ok sc) ∧
      ((∃ b, validate_url v = .ok b) ∨
        (∃ e, extract_shortcode v = .error e ∧ e.kind = .valueError ∧
          validate_url v = .error e))) ∧
    validate_url .vNone = .ok false ∧
    (∀ n : Int, validate_url (.vInt n) = .ok false) ∧
    validate_url (.vStr "") = .ok false := by
  refine ⟨?_, by decide, fun n => rfl, by decide⟩
  intro v
  constructor
  · unfold validate_url
    rcases hx : extract_shortcode v with e | sc
    · dsimp only
      rcases extract_error_kinds v e hx with hk | hk
      · rw [if_pos hk]
        constructor
        · intro h; exact absurd h (by simp)
        · rintro ⟨sc, hsc⟩
          have hxx : Except.ok sc = Except.error e := by rw [← hsc]
          exact Except.noConfusion hxx
      · rw [if_neg (by rw [hk]; decide)]
        constructor
        · intro h; exact absurd h (by simp)
        · rintro ⟨sc, hsc⟩
          have hxx : Except.ok sc = Except.error e := by rw [← hsc]
          exact Except.noConfusion hxx
    · simp
  · unfold validate_url
    rcases hx : extract_shortcode v with e | sc
    · dsimp only
      rcases extract_error_kinds v e hx with hk | hk
      · rw [if_pos hk]
        exact Or.inl ⟨false, rfl⟩
      · rw [if_neg (by rw [hk]; decide)]
        exact Or.inr ⟨e, rfl, by rw [hk], rfl⟩
    · exact Or.inl ⟨true, rfl⟩

theorem isPrefixOf_append_self (l t : List Char) : l.isPrefixOf (l ++ t) = true := by
  induction l with
  | nil => simp
  | cons c r ih => simp [List.isPrefixOf_cons₂, ih]

theorem takeWhile_all_append (p : Char → Bool) (xs ys : List Char)
    (h : ∀ c ∈ xs, p c = true) :
    (xs ++ ys).takeWhile p = xs ++ ys.takeWhile p := by
  induction xs with
  | nil => rfl
  | cons c r ih =>
    simp only [List.cons_append, List.takeWhile_cons, h c (by simp)]
    simp [ih (fun b hb => h b (by simp [hb]))]

theorem searchPat_cons (lit : List Char) (c : Char) (t : List Char) :
    searchPat lit (c :: t)
      = if lit.isPrefixOf (c :: t) = true then
          (if (((c :: t).drop lit.length).takeWhile isShortChar).isEmpty = true
            then searchPat lit t
            else some (((c :: t).drop lit.length).takeWhile isShortChar))
        else searchPat lit t := by
  rfl

theorem searchPat_reel (xs : List Char) (hne : xs ≠ [])
    (hall : ∀ c ∈ xs, isShortChar c = true) :
    searchPat ("instagram.com/reel/".data)
        ("www.instagram.com/reel/".data ++ (xs ++ ['/'])) = some xs := by
  rw [show "www.instagram.com/reel/".data ++ (xs ++ ['/'])
      = 'w' :: ('w' :: ('w' :: ('.' ::
          ("instagram.com/reel/".data ++ (xs ++ ['/']))))) from rfl]
  rw [searchPat_cons, if_neg (by simp [List.isPrefixOf_cons₂])]
  rw [searchPat_cons, if_neg (by simp [List.isPrefixOf_cons₂])]
  rw [searchPat_cons, if_neg (by simp [List.isPrefixOf_cons₂])]
  rw [searchPat_cons, if_neg (by simp [List.isPrefixOf_cons₂])]
  rw [show "instagram.com/reel/".data ++ (xs ++ ['/'])
      = 'i' :: ("nstagram.com/reel/".data ++ (xs ++ ['/'])) from rfl]
  rw [searchPat_cons,
      if_pos (show ("instagram.com/reel/".data).isPrefixOf
          ('i' :: ("nstagram.com/reel/".data ++ (xs ++ ['/']))) = true from
        isPrefixOf_append_self "instagram.com/reel/".data (xs ++ ['/']))]
  rw [show ('i' :: ("nstagram.com/reel/".data ++ (xs ++ ['/']))).drop
        ("instagram.com/reel/".data).length = xs ++ ['/'] from rfl]
  rw [takeWhile_all_append isShortChar xs ['/'] hall]
  rw [show List.takeWhile isShortChar ['/'] = [] from rfl]
  rw [List.append_nil]
  rw [if_neg (by
    rcases xs with _ | ⟨c, t⟩
    · exact absurd rfl hne
    · simp)]

theorem takeWhile_all_self (p : Char → Bool) (xs : List Char)
    (h : ∀ c ∈ xs, p c = true) : xs.takeWhile p = xs := by
  induction xs with
  | nil => rfl
  | cons c r ih =>
    simp only [List.takeWhile_cons, h c (by simp)]
    simp [ih (fun b hb => h b (by simp [hb]))]

theorem shortChar_ne (c d : Char) (hd : isShortChar d = false)
    (h : isShortChar c = true) : (c != d) = true := by
  rcases heq : c == d with _ | _
  · simp [bne, heq]
  · have hcd : c = d := beq_iff_eq.mp heq
    rw [hcd] at h
    exact absurd h (by simp [hd])

theorem canonical_path_all (xs : List Char) (d : Char)
    (hd : isShortChar d = false)
    (h1 : ('/' != d) = true) (h2 : ('r' != d) = true)
    (h3 : ('e' != d) = true) (h4 : ('l' != d) = true)
    (hall : ∀ c ∈ xs, isShortChar c = true) :
    ∀ c ∈ '/' :: ("reel/".data ++ (xs ++ ['/'])), (c != d) = true := by
  intro c hc
  simp only [List.mem_cons, List.mem_append, List.mem_singleton,
    List.not_mem_nil, or_false] at hc
  rcases hc with hc | (hc | hc | hc | hc | hc) | hc | hc <;>
    first
      | assumption
      | (rw [hc]; assumption)
      | exact shortChar_ne c d hd (hall c hc)

theorem urlparse_canonical (xs : List Char)
    (hall : ∀ c ∈ xs, isShortChar c = true) :
    urlparseNP ("https://www.instagram.com/reel/".data ++ (xs ++ ['/']))
      = .ok { netloc := "www.instagram.com".data
              path := '/' :: ("reel/".data ++ (xs ++ ['/'])) } := by
  have hnh := canonical_path_all xs '#' (by decide) (by decide) (by decide)
    (by decide) (by decide) hall
  have hnq := canonical_path_all xs '?' (by decide) (by decide) (by decide)
    (by decide) (by decide) hall
  show Except.ok
      (UrlParts.mk "www.instagram.com".data
        ((('/' :: ("reel/".data ++ (xs ++ ['/']))).takeWhile
            (fun x => x != '#')).takeWhile (fun x => x != '?')))
    = Except.ok
      (UrlParts.mk "www.instagram.com".data ('/' :: ("reel/".data ++ (xs ++ ['/']))))
  rw [takeWhile_all_self _ _ hnh, takeWhile_all_self _ _ hnq]

theorem isEmpty_false_of_data (s : String) (c : Char) (l : List Char)
    (h : s.data = c :: l) : s.isEmpty = false := by
  rcases hE : s.isEmpty with _ | _
  · rfl
  · exfalso
    have h2 := String.isEmpty_iff s |>.mp hE
    rw [h2] at h
    exact List.noConfusion h

theorem shortcodeOK_parts (sc : String) (h : shortcodeOK sc = true) :
    sc.data ≠ [] ∧ ∀ c ∈ sc.data, isShortChar c = true := by
  unfold shortcodeOK at h
  rw [Bool.and_eq_true] at h
  obtain ⟨h1, h2⟩ := h
  refine ⟨?_, fun c hc => List.all_eq_true.mp h2 c hc⟩
  intro hnil
  have h1x : sc.length = 11 := by simpa using h1
  rw [show sc.length = sc.data.length from rfl, hnil] at h1x
  simp at h1x

theorem extract_canonical (sc : String) (h : shortcodeOK sc = true) :
    extract_shortcode (.vStr (canonicalURL sc)) = .ok sc := by
  obtain ⟨hne, hall⟩ := shortcodeOK_parts sc h
  unfold extract_shortcode
  dsimp only
  rw [if_neg (by
    have : (canonicalURL sc).data
        = 'h' :: ("ttps://www.instagram.com/reel/".data ++ (sc.data ++ ['/'])) := rfl
    rw [isEmpty_false_of_data (canonicalURL sc) _ _ this]
    simp)]
  rw [show (canonicalURL sc).data
      = "https://www.instagram.com/reel/".data ++ (sc.data ++ ['/']) from rfl]
  rw [urlparse_canonical sc.data hall]
  dsimp only
  rw [show "www.instagram.com".data ++ ('/' :: ("reel/".data ++ (sc.data ++ ['/'])))
      = "www.instagram.com/reel/".data ++ (sc.data ++ ['/']) from rfl]
  unfold firstGroup
  rw [searchPat_reel sc.data hne hall]
  dsimp only
  rw [if_pos (show shortcodeOK ⟨sc.data⟩ = true from h)]

/-- C8: for every URL the parser accepts (returning an 11-character
shortcode over the class), `extract_shortcode` after `normalize_url`
returns that same shortcode: extraction is a left inverse of
normalization. -/
theorem extract_normalize_left_inverse (url sc : String)
    (h : extract_shortcode (.vStr url) = .ok sc) :
    normalize_url (.vStr url) = .ok (canonicalURL sc) ∧
    extract_shortcode (.vStr (canonicalURL sc)) = .ok sc := by
  refine ⟨?_, extract_canonical sc (extract_ok_shortcodeOK _ sc h)⟩
  unfold normalize_url
  rw [h]

/-- Witness for C8 at a concrete reel URL with a query string. -/
theorem extract_normalize_left_inverse_witness :
    extract_shortcode (.vStr "https://instagram.com/reel/ABC12345678/?igsh=1")
      = .ok "ABC12345678" ∧
    (normalize_url (.vStr "https://instagram.com/reel/ABC12345678/?igsh=1")
       = .ok (canonicalURL "ABC12345678") ∧
     extract_shortcode (.vStr (canonicalURL "ABC12345678")) = .ok "ABC12345678") :=
  ⟨by decide, extract_normalize_left_inverse "https://instagram.com/reel/ABC12345678/?igsh=1" "ABC12345678" (by decide)⟩
